import Mathlib

/-!
Shallow embedding of the `deckformat` package: JSON-like document values,
the tool-identity record, format-version parsing and comparison, the
transform-compatibility rule, and the history ledger.

Go maps `map[string]interface{}` are modelled as association lists over a
JSON-like value type; a Go `nil` interface value is `Value.vNull`, and a
`nil` map is `Option.none` where the code distinguishes it.  Go's `panic`
and `error` returns are both modelled as `Except.error` carrying the
message string.  Go's `int` is modelled as `Int` with the 64-bit range
check that `strconv.Atoi` performs.
-/

namespace DeckFormat

/-- JSON-like values stored in a document (`interface{}` in the source). -/
inductive Value where
  | vNull : Value
  | vBool : Bool → Value
  | vStr : String → Value
  | vNum : Int → Value
  | vArr : List Value → Value
  | vObj : List (String × Value) → Value

/-- A document: `map[string]interface{}` as an association list. -/
abbrev Doc := List (String × Value)

def VersionKey : String := "_format_version"

def TransformKey : String := "_transform"

def HistoryKey : String := "_ignore"

/-- Go map read `d[k]`: first binding for `k`, `none` when absent. -/
def getVal (d : Doc) (k : String) : Option Value :=
  match d with
  | [] => none
  | (k2, v) :: rest => if k2 = k then some v else getVal rest k

/-- Go's `d[k] == nil`: true when the key is absent or its value is the
nil interface (JSON null). -/
def isNilValue (o : Option Value) : Bool :=
  match o with
  | none => true
  | some .vNull => true
  | some _ => false

/-- Go map delete `delete(d, k)`. -/
def eraseKey (d : Doc) (k : String) : Doc :=
  match d with
  | [] => []
  | (k2, v) :: rest => if k2 = k then eraseKey rest k else (k2, v) :: eraseKey rest k

/-- Go map assignment `d[k] = v`. -/
def setKey (d : Doc) (k : String) (v : Value) : Doc :=
  (k, v) :: eraseKey d k

/-- Modelled from the spec: `jsonbasics.GetBoolField` (the `jsonbasics`
package is not part of the given sources).  Reads a field as a boolean;
any non-boolean value (missing key included) is a field-type error
identifying the offending field. -/
def GetBoolField (d : Doc) (k : String) : Except String Bool :=
  match getVal d k with
  | some (.vBool b) => .ok b
  | _ => .error ("expected key '" ++ k ++ "' to be a boolean")

/-- Modelled from the spec: `jsonbasics.GetStringField` (the `jsonbasics`
package is not part of the given sources).  Reads a field as a string;
any non-string value (missing key included) is a field-type error. -/
def GetStringField (d : Doc) (k : String) : Except String String :=
  match getVal d k with
  | some (.vStr s) => .ok s
  | _ => .error ("expected key '" ++ k ++ "' to be a string")

/-- Modelled from the spec: `jsonbasics.ToArray` (the `jsonbasics` package
is not part of the given sources).  Interprets a value as a sequence,
failing on any non-sequence value. -/
def ToArray (v : Value) : Except String (List Value) :=
  match v with
  | .vArr xs => .ok xs
  | _ => .error "not an array"

/-- Modelled from the spec: `jsonbasics.DeepCopyArray` (the `jsonbasics`
package is not part of the given sources).  Returns a deep copy of the
array; on pure values a deep copy is extensionally the identity, so the
model rebuilds the spine and returns an equal list. -/
def DeepCopyArray (xs : List Value) : List Value :=
  xs.map (fun v => v)

/-! ## Tool identity (`toolInfo`, set once at startup)

The Go package keeps the identity in a package-level variable; here the
record is passed explicitly, with the zero value as initial state.  The
two `panic` calls are modelled as `Except.error` with the panic message. -/

structure ToolInfo where
  name : String
  version : String
  commit : String

def toolInfoInit : ToolInfo := { name := "", version := "", commit := "" }

def setPanicMsg : String :=
  "the tool information was already set, or cannot be set to an empty string"

def getPanicMsg : String :=
  "the tool information wasn't set, call ToolVersionSet first"

/-- `ToolVersionSet`: write-once setter for the tool identity. -/
def ToolVersionSet (ti : ToolInfo) (name version commit : String) :
    Except String ToolInfo :=
  if ti.name ≠ "" ∨ name = "" then .error setPanicMsg
  else .ok { name := name, version := version, commit := commit }

/-- `ToolVersionGet`: returns the stored identity components. -/
def ToolVersionGet (ti : ToolInfo) : Except String (String × String × String) :=
  if ti.name = "" then .error getPanicMsg
  else .ok (ti.name, ti.version, ti.commit)

/-- `ToolVersionString`: single formatted identity string,
eg. "decK 1.2 (123abc)". -/
def ToolVersionString (ti : ToolInfo) : Except String String :=
  match ToolVersionGet ti with
  | .error e => .error e
  | .ok (n, v, c) =>
    if c ≠ "" then .ok (n ++ " " ++ v ++ " (" ++ c ++ ")")
    else if v ≠ "" then .ok (n ++ " " ++ v)
    else .ok n

/-! ## Format-version parsing (`ParseFormatVersion`)

`strings.Split(v, ".")` and `strconv.Atoi` are modelled character by
character, including `Atoi`'s optional leading sign and its 64-bit
range check (`int` is 64-bit on the supported platforms). -/

def isDigitChar (c : Char) : Bool :=
  '0' ≤ c && c ≤ '9'

/-- Accumulator loop of `strconv.Atoi`'s decimal decoding: consumes the
whole list, failing on a non-digit character. -/
def digitsVal (cs : List Char) (acc : Nat) : Option Nat :=
  match cs with
  | [] => some acc
  | c :: rest =>
    if isDigitChar c then digitsVal rest (acc * 10 + (c.toNat - 48)) else none

/-- Numeric value of an all-digit character list. -/
def decValue (cs : List Char) : Nat :=
  cs.foldl (fun acc c => acc * 10 + (c.toNat - 48)) 0

/-- Largest Go `int` (64-bit). -/
def intMax : Nat := 2 ^ 63 - 1

/-- Digit-decoding core of `strconv.Atoi`, applied after the optional
sign has been consumed: one or more decimal digits whose value must fit
a signed 64-bit integer (`-2^63 ≤ value ≤ 2^63 - 1`). -/
def atoiCore (neg : Bool) (ds : List Char) : Except String Int :=
  match ds with
  | [] => .error "strconv.Atoi: invalid syntax"
  | _ =>
    match digitsVal ds 0 with
    | none => .error "strconv.Atoi: invalid syntax"
    | some n =>
      if neg then
        if n ≤ intMax + 1 then .ok (-(n : Int))
        else .error "strconv.Atoi: value out of range"
      else
        if n ≤ intMax then .ok (n : Int)
        else .error "strconv.Atoi: value out of range"

/-- `strconv.Atoi`: optional single leading sign, one or more decimal
digits, result must fit a signed 64-bit integer. -/
def Atoi (s : String) : Except String Int :=
  match s.toList with
  | [] => .error "strconv.Atoi: invalid syntax"
  | c :: rest =>
    if c = '-' then atoiCore true rest
    else if c = '+' then atoiCore false rest
    else atoiCore false (c :: rest)

/-- Split on `'.'`, accumulating the current segment reversed;
`strings.Split(s, ".")` at the character level. -/
def splitDotAux (cs : List Char) (acc : List Char) : List (List Char) :=
  match cs with
  | [] => [acc.reverse]
  | c :: rest =>
    if c = '.' then acc.reverse :: splitDotAux rest []
    else splitDotAux rest (c :: acc)

/-- `strings.Split(s, ".")`. -/
def splitDot (s : String) : List String :=
  (splitDotAux s.toList []).map (fun cs => { data := cs })

/-- The single error message `ParseFormatVersion` reports for every
failure shape. -/
def fvErr : String :=
  "expected field '." ++ VersionKey ++ "' to be a string in 'x.y' format"

/-- `ParseFormatVersion`: reads `_format_version`, requires a string of at
most two dot-separated segments, decodes major (and minor, defaulting
to 0) with `strconv.Atoi`. -/
def ParseFormatVersion (data : Doc) : Except String (Int × Int) :=
  match GetStringField data VersionKey with
  | .error _ => .error fvErr
  | .ok v =>
    let elem := splitDot v
    if 2 < elem.length then .error fvErr
    else
      match Atoi (elem.headD "") with
      | .error _ => .error fvErr
      | .ok majorVersion =>
        match elem with
        | _ :: e1 :: _ =>
          match Atoi e1 with
          | .error _ => .error fvErr
          | .ok minorVersion => .ok (majorVersion, minorVersion)
        | _ => .ok (majorVersion, 0)

/-! ## Compatibility checks -/

def incompatTransformMsg : String :=
  "files with '" ++ TransformKey ++ ": true' (default) and '" ++
    TransformKey ++ ": false' are not compatible"

/-- The field-type error `GetBoolField` produces for the `_transform`
key. -/
def transformFieldErr : String :=
  "expected key '" ++ TransformKey ++ "' to be a boolean"

/-- Specification helper: the resolved `_transform` flag of a document —
`true` when the key is nil/absent, the stored boolean when it is a
boolean, and undefined (`none`) when the stored value has any other
type. -/
def resolvedTransformFlag (d : Doc) : Option Bool :=
  match getVal d TransformKey with
  | none => some true
  | some .vNull => some true
  | some (.vBool b) => some b
  | some _ => none

/-- `CompatibleTransform`: resolves each document's `_transform` flag
(default `true` when nil/absent) and fails when the flags differ.  The
nil-document panics cannot arise here: a `Doc` is never nil. -/
def CompatibleTransform (data1 data2 : Doc) : Except String Unit :=
  match (if isNilValue (getVal data1 TransformKey) then Except.ok true
         else GetBoolField data1 TransformKey) with
  | .error e => .error e
  | .ok transform1 =>
    match (if isNilValue (getVal data2 TransformKey) then Except.ok true
           else GetBoolField data2 TransformKey) with
    | .error e => .error e
    | .ok transform2 =>
      if transform1 = transform2 then .ok ()
      else .error incompatTransformMsg

/-- `CompatibleVersion`: missing versions are assumed compatible, a single
declared version need only parse, two declared versions must share the
major component. -/
def CompatibleVersion (data1 data2 : Doc) : Except String Unit :=
  if isNilValue (getVal data1 VersionKey) then
    if isNilValue (getVal data2 VersionKey) then .ok ()
    else
      match ParseFormatVersion data2 with
      | .error e => .error e
      | .ok _ => .ok ()
  else
    if isNilValue (getVal data2 VersionKey) then
      match ParseFormatVersion data1 with
      | .error e => .error e
      | .ok _ => .ok ()
    else
      match ParseFormatVersion data1 with
      | .error e => .error e
      | .ok (major1, minor1) =>
        match ParseFormatVersion data2 with
        | .error e => .error e
        | .ok (major2, minor2) =>
          if major1 = major2 then .ok ()
          else
            .error ("major versions are incompatible; " ++ toString major1 ++ "." ++
              toString minor1 ++ " and " ++ toString major2 ++ "." ++ toString minor2)

/-- `CompatibleFile`: transform check, then version check, each failure
wrapped with the generic incompatibility message. -/
def CompatibleFile (data1 data2 : Doc) : Except String Unit :=
  match CompatibleTransform data1 data2 with
  | .error e => .error ("files are incompatible; " ++ e)
  | .ok _ =>
    match CompatibleVersion data1 data2 with
    | .error e => .error ("files are incompatible; " ++ e)
    | .ok _ => .ok ()

/-! ## History ledger -/

/-- `HistoryGet`: empty for a nil document or a nil/absent `_ignore` key;
a non-sequence value is wrapped in a one-element sequence; the result is
a (deep) copy. -/
def HistoryGet (filedata : Option Doc) : List Value :=
  match filedata with
  | none => []
  | some d =>
    match getVal d HistoryKey with
    | none => []
    | some .vNull => []
    | some v =>
      match ToArray v with
      | .ok arr => DeepCopyArray arr
      | .error _ => DeepCopyArray [v]

/-- `HistoryClear`: unconditionally removes the `_ignore` key. -/
def HistoryClear (filedata : Doc) : Doc :=
  eraseKey filedata HistoryKey

/-- `HistorySet`: a nil array deletes the history; otherwise the entries
are stored and then (current legacy behaviour, pending metafield support
downstream) immediately cleared again. -/
def HistorySet (filedata : Doc) (historyArray : Option (List Value)) : Doc :=
  match historyArray with
  | none => HistoryClear filedata
  | some arr => HistoryClear (setKey filedata HistoryKey (.vArr arr))

/-- `HistoryAppend`: reads the current history, appends the entry, writes
the result back through `HistorySet`. -/
def HistoryAppend (filedata : Doc) (newEntry : Value) : Doc :=
  HistorySet filedata (some (HistoryGet (some filedata) ++ [newEntry]))

/-- `HistoryNewEntry`: a fresh entry stamped with the tool identity. -/
def HistoryNewEntry (ti : ToolInfo) (cmd : String) : Except String Doc :=
  match ToolVersionString ti with
  | .error e => .error e
  | .ok tool => .ok [("tool", .vStr tool), ("command", .vStr cmd)]

/-! ## Helper lemmas -/

theorem getVal_eraseKey_self (d : Doc) (k : String) :
    getVal (eraseKey d k) k = none := by
  induction d with
  | nil => rfl
  | cons kv rest ih =>
    obtain ⟨k2, v⟩ := kv
    by_cases h : k2 = k
    · simp [eraseKey, h, ih]
    · simp [eraseKey, getVal, h, ih]

theorem deepCopyArray_id (xs : List Value) : DeepCopyArray xs = xs := by
  induction xs with
  | nil => rfl
  | cons x rest ih => simp [DeepCopyArray, ih]

theorem resolvedTransformFlag_eq_read (d : Doc) (b : Bool) :
    resolvedTransformFlag d = some b ↔
      (if isNilValue (getVal d TransformKey) then Except.ok true
       else GetBoolField d TransformKey) = .ok b := by
  unfold resolvedTransformFlag GetBoolField
  cases hg : getVal d TransformKey with
  | none => simp [isNilValue]
  | some v => cases v <;> simp [isNilValue]

theorem parseOk_not_nil (d : Doc) (mm : Int × Int)
    (h : ParseFormatVersion d = .ok mm) :
    isNilValue (getVal d VersionKey) = false := by
  cases hg : getVal d VersionKey with
  | none =>
    exfalso
    unfold ParseFormatVersion GetStringField at h
    rw [hg] at h
    simp at h
  | some v =>
    cases v with
    | vNull =>
      exfalso
      unfold ParseFormatVersion GetStringField at h
      rw [hg] at h
      simp at h
    | vBool b => rfl
    | vStr s => rfl
    | vNum n => rfl
    | vArr xs => rfl
    | vObj fs => rfl

theorem digitsVal_all_digits (cs : List Char) (acc : Nat)
    (h : ∀ c ∈ cs, isDigitChar c = true) :
    digitsVal cs acc = some (cs.foldl (fun a c => a * 10 + (c.toNat - 48)) acc) := by
  induction cs generalizing acc with
  | nil => rfl
  | cons c rest ih =>
    have hc : isDigitChar c = true := h c (List.mem_cons_self c rest)
    have hrest : ∀ c2 ∈ rest, isDigitChar c2 = true :=
      fun c2 h2 => h c2 (List.mem_cons_of_mem c h2)
    simp [digitsVal, hc, List.foldl, ih _ hrest]

theorem digitsVal_err_of_nondigit (cs : List Char) (acc : Nat) (c : Char)
    (hmem : c ∈ cs) (hc : isDigitChar c = false) :
    digitsVal cs acc = none := by
  induction cs generalizing acc with
  | nil => cases hmem
  | cons c2 rest ih =>
    by_cases h2 : isDigitChar c2 = true
    · have hcr : c ∈ rest := by
        rcases List.mem_cons.mp hmem with he | ht
        · exfalso; rw [he] at hc; rw [hc] at h2; cases h2
        · exact ht
      simp [digitsVal, h2, ih _ hcr]
    · simp [digitsVal, h2]

theorem atoiCore_err_of_nondigit (neg : Bool) (ds : List Char) (c : Char)
    (hmem : c ∈ ds) (hc : isDigitChar c = false) :
    atoiCore neg ds = .error "strconv.Atoi: invalid syntax" := by
  cases ds with
  | nil => cases hmem
  | cons d rest =>
    have hd := digitsVal_err_of_nondigit (d :: rest) 0 c hmem hc
    simp [atoiCore, hd]

theorem atoiCore_ok_of_digits (ds : List Char) (hne : ds ≠ [])
    (h : ∀ c ∈ ds, isDigitChar c = true) (hle : decValue ds ≤ intMax) :
    atoiCore false ds = .ok ((decValue ds : Nat) : Int) := by
  cases ds with
  | nil => exact absurd rfl hne
  | cons d rest =>
    have hd : digitsVal (d :: rest) 0 = some (decValue (d :: rest)) :=
      digitsVal_all_digits (d :: rest) 0 h
    simp only [atoiCore, hd]
    simp [hle]

theorem digit_ne_sign_dot (c : Char) (hc : isDigitChar c = true) :
    ¬ c = '-' ∧ ¬ c = '+' ∧ ¬ c = '.' := by
  refine ⟨?_, ?_, ?_⟩ <;> intro he <;> rw [he] at hc <;> cases hc

theorem atoi_ok_of_digits (ds : List Char) (hne : ds ≠ [])
    (h : ∀ c ∈ ds, isDigitChar c = true) (hle : decValue ds ≤ intMax) :
    Atoi { data := ds } = .ok ((decValue ds : Nat) : Int) := by
  cases ds with
  | nil => exact absurd rfl hne
  | cons d rest =>
    have hd : isDigitChar d = true := h d (List.mem_cons_self d rest)
    obtain ⟨hm, hp, _⟩ := digit_ne_sign_dot d hd
    simp only [Atoi, String.toList]
    simp [hm, hp, atoiCore_ok_of_digits (d :: rest) hne h hle]

theorem atoi_err_of_bad_char (ds : List Char) (c : Char) (hmem : c ∈ ds)
    (hc : isDigitChar c = false) (hp : c ≠ '+') (hm : c ≠ '-') :
    Atoi { data := ds } = .error "strconv.Atoi: invalid syntax" := by
  cases ds with
  | nil => cases hmem
  | cons c0 rest =>
    by_cases h0 : c0 = '-'
    · have hcr : c ∈ rest := by
        rcases List.mem_cons.mp hmem with he | ht
        · exact absurd (he.trans h0) hm
        · exact ht
      simp only [Atoi, String.toList]
      simp [h0, atoiCore_err_of_nondigit true rest c hcr hc]
    · by_cases h1 : c0 = '+'
      · have hcr : c ∈ rest := by
          rcases List.mem_cons.mp hmem with he | ht
          · exact absurd (he.trans h1) hp
          · exact ht
        simp only [Atoi, String.toList]
        simp [h0, h1, atoiCore_err_of_nondigit false rest c hcr hc]
      · simp only [Atoi, String.toList]
        simp [h0, h1, atoiCore_err_of_nondigit false (c0 :: rest) c hmem hc]

theorem splitDotAux_ne_nil (cs acc : List Char) : splitDotAux cs acc ≠ [] := by
  induction cs generalizing acc with
  | nil => simp [splitDotAux]
  | cons c rest ih =>
    by_cases hc : c = '.'
    · simp [splitDotAux, hc]
    · simpa [splitDotAux, hc] using ih (c :: acc)

theorem splitDotAux_no_dot (cs acc : List Char) (h : ∀ c ∈ cs, ¬ c = '.') :
    splitDotAux cs acc = [acc.reverse ++ cs] := by
  induction cs generalizing acc with
  | nil => simp [splitDotAux]
  | cons c rest ih =>
    have hc : ¬ c = '.' := h c (List.mem_cons_self c rest)
    have hrest : ∀ c2 ∈ rest, ¬ c2 = '.' :=
      fun c2 h2 => h c2 (List.mem_cons_of_mem c h2)
    simp [splitDotAux, hc, ih (c :: acc) hrest]

theorem splitDotAux_append (cs1 cs2 acc : List Char) (h : ∀ c ∈ cs1, ¬ c = '.') :
    splitDotAux (cs1 ++ '.' :: cs2) acc =
      (acc.reverse ++ cs1) :: splitDotAux cs2 [] := by
  induction cs1 generalizing acc with
  | nil => simp [splitDotAux]
  | cons c rest ih =>
    have hc : ¬ c = '.' := h c (List.mem_cons_self c rest)
    have hrest : ∀ c2 ∈ rest, ¬ c2 = '.' :=
      fun c2 h2 => h c2 (List.mem_cons_of_mem c h2)
    simp [splitDotAux, hc, ih (c :: acc) hrest]

theorem splitDotAux_mem (cs : List Char) (acc : List Char) (c : Char)
    (hc : ¬ c = '.') (hmem : c ∈ acc ∨ c ∈ cs) :
    ∃ seg ∈ splitDotAux cs acc, c ∈ seg := by
  induction cs generalizing acc with
  | nil =>
    rcases hmem with h | h
    · exact ⟨acc.reverse, by simp [splitDotAux], by simp [h]⟩
    · cases h
  | cons c2 rest ih =>
    by_cases h2 : c2 = '.'
    · rcases hmem with h | h
      · exact ⟨acc.reverse, by simp [splitDotAux, h2], by simp [h]⟩
      · rcases List.mem_cons.mp h with he | ht
        · exact absurd (he.trans h2) hc
        · obtain ⟨seg, hs, hcs⟩ := ih [] (Or.inr ht)
          refine ⟨seg, ?_, hcs⟩
          simp only [splitDotAux, h2, if_pos]
          exact List.mem_cons_of_mem _ hs
    · have hmem2 : c ∈ (c2 :: acc) ∨ c ∈ rest := by
        rcases hmem with h | h
        · exact Or.inl (List.mem_cons_of_mem _ h)
        · rcases List.mem_cons.mp h with he | ht
          · exact Or.inl (he ▸ List.mem_cons_self _ _)
          · exact Or.inr ht
      obtain ⟨seg, hs, hcs⟩ := ih (c2 :: acc) hmem2
      refine ⟨seg, ?_, hcs⟩
      simpa [splitDotAux, h2] using hs

theorem parse_of_string (d : Doc) (v : String)
    (hv : getVal d VersionKey = some (.vStr v)) :
    ParseFormatVersion d =
      (if 2 < (splitDot v).length then .error fvErr
       else
         match Atoi ((splitDot v).headD "") with
         | .error _ => .error fvErr
         | .ok majorVersion =>
           match splitDot v with
           | _ :: e1 :: _ =>
             match Atoi e1 with
             | .error _ => .error fvErr
             | .ok minorVersion => .ok (majorVersion, minorVersion)
           | _ => .ok (majorVersion, 0)) := by
  unfold ParseFormatVersion GetStringField
  rw [hv]

theorem parse_err_of_bad_char (d : Doc) (v : String) (c : Char)
    (hv : getVal d VersionKey = some (.vStr v)) (hmem : c ∈ v.toList)
    (hdig : isDigitChar c = false) (hp : c ≠ '+') (hm : c ≠ '-') (hdot : c ≠ '.') :
    ParseFormatVersion d = .error fvErr := by
  rw [parse_of_string d v hv]
  have hmem2 : c ∈ v.data := hmem
  obtain ⟨seg, hseg, hcseg⟩ : ∃ seg ∈ splitDotAux v.data [], c ∈ seg :=
    splitDotAux_mem v.data [] c hdot (Or.inr hmem2)
  have hAtoi : Atoi { data := seg } = .error "strconv.Atoi: invalid syntax" :=
    atoi_err_of_bad_char seg c hcseg hdig hp hm
  have hsd : splitDot v =
      List.map (fun cs => ({ data := cs } : String)) (splitDotAux v.data []) := rfl
  cases hsp : splitDotAux v.data [] with
  | nil => exact absurd hsp (splitDotAux_ne_nil v.data [])
  | cons s0 tail =>
    rw [hsp] at hsd hseg
    cases tail with
    | nil =>
      have hseg0 : seg = s0 := by simpa using hseg
      rw [hseg0] at hAtoi
      rw [hsd]
      simp [hAtoi]
    | cons s1 tail2 =>
      cases tail2 with
      | nil =>
        rw [hsd]
        have hor : seg = s0 ∨ seg = s1 := by simpa using hseg
        rcases hor with h | h
        · rw [h] at hAtoi
          simp [hAtoi]
        · rw [h] at hAtoi
          cases hA0 : Atoi { data := s0 } with
          | error e => simp [hA0]
          | ok n => simp [hA0, hAtoi]
      | cons s2 tail3 =>
        rw [hsd]
        have hgt : 2 < (List.map (fun cs => ({ data := cs } : String))
            (s0 :: s1 :: s2 :: tail3)).length := by
          simp
        rw [if_pos hgt]

theorem parse_ok_single (d : Doc) (M : List Char) (hne : M ≠ [])
    (hdig : ∀ c ∈ M, isDigitChar c = true) (hle : decValue M ≤ intMax)
    (hv : getVal d VersionKey = some (.vStr { data := M })) :
    ParseFormatVersion d = .ok (((decValue M : Nat) : Int), 0) := by
  rw [parse_of_string d { data := M } hv]
  have hnodot : ∀ c ∈ M, ¬ c = '.' := fun c hc => (digit_ne_sign_dot c (hdig c hc)).2.2
  have hsd : splitDot { data := M } = [{ data := M }] := by
    simp [splitDot, String.toList, splitDotAux_no_dot M [] hnodot]
  rw [hsd]
  simp [atoi_ok_of_digits M hne hdig hle]

theorem parse_ok_pair (d : Doc) (M m : List Char) (hne1 : M ≠ []) (hne2 : m ≠ [])
    (hdig1 : ∀ c ∈ M, isDigitChar c = true) (hdig2 : ∀ c ∈ m, isDigitChar c = true)
    (hle1 : decValue M ≤ intMax) (hle2 : decValue m ≤ intMax)
    (hv : getVal d VersionKey = some (.vStr { data := M ++ '.' :: m })) :
    ParseFormatVersion d = .ok (((decValue M : Nat) : Int), ((decValue m : Nat) : Int)) := by
  rw [parse_of_string d { data := M ++ '.' :: m } hv]
  have hnodot1 : ∀ c ∈ M, ¬ c = '.' := fun c hc => (digit_ne_sign_dot c (hdig1 c hc)).2.2
  have hnodot2 : ∀ c ∈ m, ¬ c = '.' := fun c hc => (digit_ne_sign_dot c (hdig2 c hc)).2.2
  have hsd : splitDot { data := M ++ '.' :: m } = [{ data := M }, { data := m }] := by
    simp [splitDot, String.toList, splitDotAux_append M m [] hnodot1,
      splitDotAux_no_dot m [] hnodot2]
  rw [hsd]
  simp [atoi_ok_of_digits M hne1 hdig1 hle1, atoi_ok_of_digits m hne2 hdig2 hle2]

theorem parse_err_of_no_string (d : Doc)
    (hv : ∀ s : String, getVal d VersionKey ≠ some (.vStr s)) :
    ParseFormatVersion d = .error fvErr := by
  unfold ParseFormatVersion GetStringField
  cases hg : getVal d VersionKey with
  | none => rfl
  | some v =>
    cases v with
    | vStr s => exact absurd hg (hv s)
    | vNull => rfl
    | vBool b => rfl
    | vNum n => rfl
    | vArr xs => rfl
    | vObj fs => rfl

/-! ## Claim theorems -/

/-- C2: after any call to `HistorySet`, `HistoryAppend`, or
`HistoryClear` the document does not contain the `_ignore` key; in
particular `HistoryAppend` immediately followed by `HistoryGet` on the
same document returns an empty sequence. -/
theorem history_mutators_clear (d : Doc) (hist : Option (List Value)) (entry : Value) :
    getVal (HistorySet d hist) HistoryKey = none ∧
    getVal (HistoryAppend d entry) HistoryKey = none ∧
    getVal (HistoryClear d) HistoryKey = none ∧
    HistoryGet (some (HistoryAppend d entry)) = [] := by
  have hset : ∀ h2 : Option (List Value), getVal (HistorySet d h2) HistoryKey = none := by
    intro h2
    cases h2 with
    | none => exact getVal_eraseKey_self d HistoryKey
    | some arr => exact getVal_eraseKey_self (setKey d HistoryKey (.vArr arr)) HistoryKey
  have happ : getVal (HistoryAppend d entry) HistoryKey = none :=
    hset (some (HistoryGet (some d) ++ [entry]))
  refine ⟨hset hist, happ, getVal_eraseKey_self d HistoryKey, ?_⟩
  simp [HistoryGet, happ]

/-- C6 counterexample: with a non-empty commit but an empty version,
`ToolVersionString` still uses the "name version (commit)" shape (with an
empty version slot), not just the name as the claim states. -/
theorem toolVersionString_claim_cex :
    ToolVersionString { name := "kced", version := "", commit := "abc" } =
      .ok "kced  (abc)" ∧ "kced  (abc)" ≠ "kced" :=
  ⟨rfl, by decide⟩

/-- C6 (amended): `ToolVersionString` returns "name version (commit)"
whenever the commit is non-empty (even when the version is empty),
"name version" when the commit is empty and the version non-empty, and
just "name" when both are empty. -/
theorem toolVersionString_spec (ti : ToolInfo) (h : ti.name ≠ "") :
    (ti.commit ≠ "" →
      ToolVersionString ti = .ok (ti.name ++ " " ++ ti.version ++ " (" ++ ti.commit ++ ")")) ∧
    (ti.commit = "" → ti.version ≠ "" →
      ToolVersionString ti = .ok (ti.name ++ " " ++ ti.version)) ∧
    (ti.commit = "" → ti.version = "" → ToolVersionString ti = .ok ti.name) := by
  refine ⟨?_, ?_, ?_⟩
  · intro hc; simp [ToolVersionString, ToolVersionGet, h, hc]
  · intro hc hv; simp [ToolVersionString, ToolVersionGet, h, hc, hv]
  · intro hc hv; simp [ToolVersionString, ToolVersionGet, h, hc, hv]

/-- Witness for C6: the spec's own example identity formats as
"kced 1.0 (abc123)". -/
theorem toolVersionString_spec_witness :
    ToolVersionString { name := "kced", version := "1.0", commit := "abc123" } =
      .ok "kced 1.0 (abc123)" := by
  have h := (toolVersionString_spec
    { name := "kced", version := "1.0", commit := "abc123" } (by decide)).1 (by decide)
  exact h.trans (by rfl)

/-- C7: `ToolVersionSet` fails iff the name is empty or an identity is
already stored, and otherwise stores the triple; `ToolVersionGet` fails
iff no identity is stored, and otherwise returns the stored triple
unchanged. -/
theorem toolVersion_lifecycle (ti : ToolInfo) (name version commit : String) :
    (ToolVersionSet ti name version commit = .error setPanicMsg ↔
      (name = "" ∨ ti.name ≠ "")) ∧
    (name ≠ "" → ti.name = "" →
      ToolVersionSet ti name version commit =
        .ok { name := name, version := version, commit := commit }) ∧
    (ToolVersionGet ti = .error getPanicMsg ↔ ti.name = "") ∧
    (ti.name ≠ "" → ToolVersionGet ti = .ok (ti.name, ti.version, ti.commit)) := by
  refine ⟨?_, ?_, ?_, ?_⟩
  · by_cases h1 : ti.name = "" <;> by_cases h2 : name = "" <;>
      simp [ToolVersionSet, h1, h2]
  · intro h1 h2; simp [ToolVersionSet, h1, h2]
  · by_cases h1 : ti.name = "" <;> simp [ToolVersionGet, h1]
  · intro h1; simp [ToolVersionGet, h1]

/-- Witness for C7: setting the identity once from the initial state
succeeds, a second set fails, and a get before any set fails. -/
theorem toolVersion_lifecycle_witness :
    ToolVersionSet toolInfoInit "kced" "1.0" "abc123" =
      .ok { name := "kced", version := "1.0", commit := "abc123" } ∧
    ToolVersionSet { name := "kced", version := "1.0", commit := "abc123" }
      "kced" "2.0" "def" = .error setPanicMsg ∧
    ToolVersionGet toolInfoInit = .error getPanicMsg := by
  refine ⟨?_, ?_, ?_⟩
  · exact (toolVersion_lifecycle toolInfoInit "kced" "1.0" "abc123").2.1 (by decide) rfl
  · exact ((toolVersion_lifecycle { name := "kced", version := "1.0", commit := "abc123" }
      "kced" "2.0" "def").1).mpr (Or.inr (by decide))
  · exact ((toolVersion_lifecycle toolInfoInit "x" "" "").2.2.1).mpr rfl

/-- C8: `HistoryGet` returns an empty sequence for a nil document or a
nil/absent `_ignore` key, wraps a non-sequence value in a one-element
sequence, returns a sequence's elements as they are, and the result is a
(deep) copy — which, on pure values, is equal to its source. -/
theorem historyGet_spec :
    HistoryGet none = [] ∧
    (∀ d : Doc, getVal d HistoryKey = none → HistoryGet (some d) = []) ∧
    (∀ d : Doc, getVal d HistoryKey = some .vNull → HistoryGet (some d) = []) ∧
    (∀ (d : Doc) (v : Value), getVal d HistoryKey = some v → v ≠ .vNull →
      (∀ xs : List Value, v ≠ .vArr xs) → HistoryGet (some d) = [v]) ∧
    (∀ (d : Doc) (xs : List Value), getVal d HistoryKey = some (.vArr xs) →
      HistoryGet (some d) = xs) := by
  refine ⟨rfl, ?_, ?_, ?_, ?_⟩
  · intro d h; simp [HistoryGet, h]
  · intro d h; simp [HistoryGet, h]
  · intro d v h hnull harr
    cases v with
    | vNull => exact absurd rfl hnull
    | vArr xs => exact absurd rfl (harr xs)
    | vBool b => simp [HistoryGet, h, ToArray, deepCopyArray_id]
    | vStr s => simp [HistoryGet, h, ToArray, deepCopyArray_id]
    | vNum n => simp [HistoryGet, h, ToArray, deepCopyArray_id]
    | vObj fs => simp [HistoryGet, h, ToArray, deepCopyArray_id]
  · intro d xs h; simp [HistoryGet, h, ToArray, deepCopyArray_id]

/-- Witness for C8: a single non-sequence history value is wrapped in a
one-element sequence. -/
theorem historyGet_spec_witness :
    HistoryGet (some [(HistoryKey, Value.vStr "single-string-entry")]) =
      [Value.vStr "single-string-entry"] := by
  exact historyGet_spec.2.2.2.1 [(HistoryKey, Value.vStr "single-string-entry")]
    (Value.vStr "single-string-entry") rfl (by simp) (by simp)

/-- C9: `CompatibleFile` runs the transform check first, returns its
failure (wrapped with the "files are incompatible" message) without
consulting the version check, wraps a version-check failure the same
way, and succeeds iff both checks succeed. -/
theorem compatibleFile_spec (d1 d2 : Doc) :
    (∀ e, CompatibleTransform d1 d2 = .error e →
      CompatibleFile d1 d2 = .error ("files are incompatible; " ++ e)) ∧
    (∀ e, CompatibleTransform d1 d2 = .ok () → CompatibleVersion d1 d2 = .error e →
      CompatibleFile d1 d2 = .error ("files are incompatible; " ++ e)) ∧
    (CompatibleFile d1 d2 = .ok () ↔
      (CompatibleTransform d1 d2 = .ok () ∧ CompatibleVersion d1 d2 = .ok ())) := by
  refine ⟨?_, ?_, ?_⟩
  · intro e h; simp [CompatibleFile, h]
  · intro e h1 h2; simp [CompatibleFile, h1, h2]
  · unfold CompatibleFile
    cases h1 : CompatibleTransform d1 d2 with
    | error e => simp
    | ok u =>
      cases u
      cases h2 : CompatibleVersion d1 d2 with
      | error e => simp
      | ok u2 => cases u2; simp

/-- Witness for C9: a transform mismatch is reported with the generic
incompatibility wrapper. -/
theorem compatibleFile_spec_witness :
    CompatibleFile [(TransformKey, Value.vBool false)] [] =
      .error ("files are incompatible; " ++ incompatTransformMsg) := by
  exact (compatibleFile_spec [(TransformKey, Value.vBool false)] []).1
    incompatTransformMsg rfl

/-- C5: when both documents' `_transform` flags resolve (default `true`
when nil/absent), `CompatibleTransform` succeeds iff the two resolved
booleans are equal, and a mismatch yields the incompatibility error. -/
theorem compatibleTransform_spec (d1 d2 : Doc) (b1 b2 : Bool)
    (h1 : resolvedTransformFlag d1 = some b1)
    (h2 : resolvedTransformFlag d2 = some b2) :
    (b1 = b2 → CompatibleTransform d1 d2 = .ok ()) ∧
    (b1 ≠ b2 → CompatibleTransform d1 d2 = .error incompatTransformMsg) := by
  have e1 := (resolvedTransformFlag_eq_read d1 b1).mp h1
  have e2 := (resolvedTransformFlag_eq_read d2 b2).mp h2
  constructor
  · intro hb
    simp only [CompatibleTransform, e1, e2]
    simp [hb]
  · intro hb
    simp only [CompatibleTransform, e1, e2]
    simp [hb]

/-- Witness for C5: an absent flag (default `true`) against an explicit
`false` is incompatible, while two absent flags are compatible. -/
theorem compatibleTransform_spec_witness :
    CompatibleTransform [] [(TransformKey, Value.vBool false)] =
      .error incompatTransformMsg ∧
    CompatibleTransform [] [] = .ok () := by
  constructor
  · exact (compatibleTransform_spec [] [(TransformKey, Value.vBool false)]
      true false rfl rfl).2 (by decide)
  · exact (compatibleTransform_spec [] [] true true rfl rfl).1 rfl

/-- C10: a `_transform` value that is present, non-nil and non-boolean
makes `CompatibleTransform` return exactly the field-type error coming
from `GetBoolField` — a recoverable error distinct from the
incompatibility error — without comparing the flags. -/
theorem compatibleTransform_badflag (d1 d2 : Doc) :
    (∀ v : Value, getVal d1 TransformKey = some v → v ≠ .vNull →
      (∀ b : Bool, v ≠ .vBool b) →
      GetBoolField d1 TransformKey = .error transformFieldErr ∧
      CompatibleTransform d1 d2 = .error transformFieldErr) ∧
    (∀ (b1 : Bool) (v : Value), resolvedTransformFlag d1 = some b1 →
      getVal d2 TransformKey = some v → v ≠ .vNull →
      (∀ b : Bool, v ≠ .vBool b) →
      GetBoolField d2 TransformKey = .error transformFieldErr ∧
      CompatibleTransform d1 d2 = .error transformFieldErr) ∧
    transformFieldErr ≠ incompatTransformMsg := by
  refine ⟨?_, ?_, by decide⟩
  · intro v hv hnull hbool
    have hnil : isNilValue (getVal d1 TransformKey) = false := by
      rw [hv]
      cases v with
      | vNull => exact absurd rfl hnull
      | vBool b => exact absurd rfl (hbool b)
      | vStr s => rfl
      | vNum n => rfl
      | vArr xs => rfl
      | vObj fs => rfl
    have herr : GetBoolField d1 TransformKey = .error transformFieldErr := by
      unfold GetBoolField transformFieldErr
      rw [hv]
      cases v with
      | vNull => exact absurd rfl hnull
      | vBool b => exact absurd rfl (hbool b)
      | vStr s => rfl
      | vNum n => rfl
      | vArr xs => rfl
      | vObj fs => rfl
    refine ⟨herr, ?_⟩
    simp only [CompatibleTransform, hnil]
    simp [herr]
  · intro b1 v hb1 hv hnull hbool
    have e1 := (resolvedTransformFlag_eq_read d1 b1).mp hb1
    have hnil : isNilValue (getVal d2 TransformKey) = false := by
      rw [hv]
      cases v with
      | vNull => exact absurd rfl hnull
      | vBool b => exact absurd rfl (hbool b)
      | vStr s => rfl
      | vNum n => rfl
      | vArr xs => rfl
      | vObj fs => rfl
    have herr : GetBoolField d2 TransformKey = .error transformFieldErr := by
      unfold GetBoolField transformFieldErr
      rw [hv]
      cases v with
      | vNull => exact absurd rfl hnull
      | vBool b => exact absurd rfl (hbool b)
      | vStr s => rfl
      | vNum n => rfl
      | vArr xs => rfl
      | vObj fs => rfl
    refine ⟨herr, ?_⟩
    simp only [CompatibleTransform, e1, hnil]
    simp [herr]

/-- Witness for C10: a string-valued `_transform` flag yields the
field-type error, and that error is not the incompatibility error. -/
theorem compatibleTransform_badflag_witness :
    CompatibleTransform [(TransformKey, Value.vStr "yes")] [] =
      .error transformFieldErr ∧
    transformFieldErr ≠ incompatTransformMsg := by
  have h := compatibleTransform_badflag [(TransformKey, Value.vStr "yes")] []
  exact ⟨(h.1 (Value.vStr "yes") rfl (by simp) (by simp)).2, h.2.2⟩

/-- C1: `CompatibleVersion` succeeds when neither document declares a
(non-nil) `_format_version`; with exactly one declared it succeeds iff
that version parses; with both declared and parsing it succeeds iff the
majors agree, and on a major mismatch the error reports both versions in
major.minor form. -/
theorem compatibleVersion_spec (d1 d2 : Doc) :
    (isNilValue (getVal d1 VersionKey) = true →
      isNilValue (getVal d2 VersionKey) = true →
      CompatibleVersion d1 d2 = .ok ()) ∧
    (isNilValue (getVal d1 VersionKey) = true →
      isNilValue (getVal d2 VersionKey) = false →
      (CompatibleVersion d1 d2 = .ok () ↔
        ∃ mm : Int × Int, ParseFormatVersion d2 = .ok mm)) ∧
    (isNilValue (getVal d1 VersionKey) = false →
      isNilValue (getVal d2 VersionKey) = true →
      (CompatibleVersion d1 d2 = .ok () ↔
        ∃ mm : Int × Int, ParseFormatVersion d1 = .ok mm)) ∧
    (∀ M1 m1 M2 m2 : Int, ParseFormatVersion d1 = .ok (M1, m1) →
      ParseFormatVersion d2 = .ok (M2, m2) →
      (CompatibleVersion d1 d2 = .ok () ↔ M1 = M2) ∧
      (M1 ≠ M2 → CompatibleVersion d1 d2 =
        .error ("major versions are incompatible; " ++ toString M1 ++ "." ++
          toString m1 ++ " and " ++ toString M2 ++ "." ++ toString m2))) := by
  refine ⟨?_, ?_, ?_, ?_⟩
  · intro h1 h2; simp [CompatibleVersion, h1, h2]
  · intro h1 h2
    cases hp : ParseFormatVersion d2 with
    | error e => simp [CompatibleVersion, h1, h2, hp]
    | ok mm => simp [CompatibleVersion, h1, h2, hp]
  · intro h1 h2
    cases hp : ParseFormatVersion d1 with
    | error e => simp [CompatibleVersion, h1, h2, hp]
    | ok mm => simp [CompatibleVersion, h1, h2, hp]
  · intro M1 m1 M2 m2 hp1 hp2
    have h1 := parseOk_not_nil d1 (M1, m1) hp1
    have h2 := parseOk_not_nil d2 (M2, m2) hp2
    by_cases hM : M1 = M2
    · constructor
      · simp [CompatibleVersion, h1, h2, hp1, hp2, hM]
      · intro hne; exact absurd hM hne
    · constructor
      · simp [CompatibleVersion, h1, h2, hp1, hp2, hM]
      · intro _; simp [CompatibleVersion, h1, h2, hp1, hp2, hM]

/-- Witness for C1: the spec's examples — same-major "2.1" vs "2.9" is
compatible, "2.1" vs "3.0" fails reporting both versions, two
version-less documents are compatible, and a single declared version is
merely validated. -/
theorem compatibleVersion_spec_witness :
    CompatibleVersion [(VersionKey, Value.vStr "2.1")] [(VersionKey, Value.vStr "2.9")] =
      .ok () ∧
    CompatibleVersion [(VersionKey, Value.vStr "2.1")] [(VersionKey, Value.vStr "3.0")] =
      .error "major versions are incompatible; 2.1 and 3.0" ∧
    CompatibleVersion [] [] = .ok () ∧
    CompatibleVersion [] [(VersionKey, Value.vStr "3.0")] = .ok () := by
  refine ⟨?_, ?_, ?_, ?_⟩
  · exact ((compatibleVersion_spec [(VersionKey, Value.vStr "2.1")]
      [(VersionKey, Value.vStr "2.9")]).2.2.2 2 1 2 9 rfl rfl).1.mpr rfl
  · have h := ((compatibleVersion_spec [(VersionKey, Value.vStr "2.1")]
      [(VersionKey, Value.vStr "3.0")]).2.2.2 2 1 3 0 rfl rfl).2 (by decide)
    exact h.trans (by rfl)
  · exact (compatibleVersion_spec [] []).1 rfl rfl
  · exact ((compatibleVersion_spec [] [(VersionKey, Value.vStr "3.0")]).2.1 rfl rfl).mpr
      ⟨(3, 0), rfl⟩

/-- C3 counterexample: the claim says `ParseFormatVersion` fails for
"-1", but `strconv.Atoi` accepts an optional leading sign, so "-1"
parses successfully to (-1, 0). -/
theorem parseFormatVersion_sign_cex :
    ParseFormatVersion [(VersionKey, Value.vStr "-1")] = .ok (-1, 0) ∧
    ParseFormatVersion [(VersionKey, Value.vStr "+1")] = .ok (1, 0) :=
  ⟨rfl, rfl⟩

/-- C3 (amended): `ParseFormatVersion` rejects every version string that
is empty, has more than two dot-separated segments, or contains a
character that is neither a decimal digit, a sign, nor the dot —
whitespace included; in particular it fails for "", "1.2.3" and "a.b".
A leading `+` or `-` sign is accepted by `strconv.Atoi`, however, so
"-1" parses successfully to (-1, 0). -/
theorem parseFormatVersion_rejects (d : Doc) :
    (∀ v : String, getVal d VersionKey = some (.vStr v) →
      2 < (splitDot v).length → ParseFormatVersion d = .error fvErr) ∧
    (∀ (v : String) (c : Char), getVal d VersionKey = some (.vStr v) →
      c ∈ v.toList → isDigitChar c = false → c ≠ '+' → c ≠ '-' → c ≠ '.' →
      ParseFormatVersion d = .error fvErr) ∧
    ParseFormatVersion [(VersionKey, Value.vStr "")] = .error fvErr ∧
    ParseFormatVersion [(VersionKey, Value.vStr "1.2.3")] = .error fvErr ∧
    ParseFormatVersion [(VersionKey, Value.vStr "a.b")] = .error fvErr ∧
    ParseFormatVersion [(VersionKey, Value.vStr "-1")] = .ok (-1, 0) := by
  refine ⟨?_, ?_, rfl, rfl, rfl, rfl⟩
  · intro v hv hlen
    rw [parse_of_string d v hv]
    rw [if_pos hlen]
  · intro v c hv hmem hdig hp hm hdot
    exact parse_err_of_bad_char d v c hv hmem hdig hp hm hdot

/-- Witness for C3: a version string containing whitespace is rejected
through the general bad-character conjunct. -/
theorem parseFormatVersion_rejects_witness :
    ParseFormatVersion [(VersionKey, Value.vStr " 1")] = .error fvErr := by
  exact (parseFormatVersion_rejects [(VersionKey, Value.vStr " 1")]).2.1
    " 1" ' ' rfl (by decide) (by decide) (by decide) (by decide) (by decide)

/-- C4 counterexample: "9223372036854775808" is the decimal form of
2^63, a non-negative integer, so the claim requires a successful parse;
`strconv.Atoi`'s 64-bit range check makes the code reject it. -/
theorem parseFormatVersion_overflow_cex :
    ParseFormatVersion [(VersionKey, Value.vStr "9223372036854775808")] =
      .error fvErr ∧
    decValue "9223372036854775808".toList = 2 ^ 63 ∧
    "9223372036854775808".toList ≠ [] ∧
    (∀ c ∈ "9223372036854775808".toList, isDigitChar c = true) :=
  ⟨rfl, by decide, by decide, by decide⟩

/-- C4 (amended): for every document whose `_format_version` value is a
string "M" or "M.m" with M, m base-10 non-negative integers that fit a
signed 64-bit integer (at most 2^63 - 1; larger values fail Atoi's range
check), `ParseFormatVersion` succeeds and returns (M, m), with m = 0
when the minor segment is omitted; it fails with the format error when
the key is missing or its value is not a string. -/
theorem parseFormatVersion_accepts (d : Doc) :
    (∀ M : List Char, M ≠ [] → (∀ c ∈ M, isDigitChar c = true) →
      decValue M ≤ intMax →
      getVal d VersionKey = some (.vStr { data := M }) →
      ParseFormatVersion d = .ok (((decValue M : Nat) : Int), 0)) ∧
    (∀ M m : List Char, M ≠ [] → m ≠ [] →
      (∀ c ∈ M, isDigitChar c = true) → (∀ c ∈ m, isDigitChar c = true) →
      decValue M ≤ intMax → decValue m ≤ intMax →
      getVal d VersionKey = some (.vStr { data := M ++ '.' :: m }) →
      ParseFormatVersion d =
        .ok (((decValue M : Nat) : Int), ((decValue m : Nat) : Int))) ∧
    (getVal d VersionKey = none → ParseFormatVersion d = .error fvErr) ∧
    (∀ v : Value, getVal d VersionKey = some v → (∀ s : String, v ≠ .vStr s) →
      ParseFormatVersion d = .error fvErr) := by
  refine ⟨?_, ?_, ?_, ?_⟩
  · intro M hne hdig hle hv
    exact parse_ok_single d M hne hdig hle hv
  · intro M m hne1 hne2 hdig1 hdig2 hle1 hle2 hv
    exact parse_ok_pair d M m hne1 hne2 hdig1 hdig2 hle1 hle2 hv
  · intro hnone
    refine parse_err_of_no_string d ?_
    intro s he
    rw [hnone] at he
    cases he
  · intro v hv hvs
    refine parse_err_of_no_string d ?_
    intro s he
    rw [hv] at he
    exact hvs s (Option.some.inj he)

/-- Witness for C4: "2.1" parses to (2, 1), "3" parses to (3, 0), and a
document without the key fails. -/
theorem parseFormatVersion_accepts_witness :
    ParseFormatVersion [(VersionKey, Value.vStr "2.1")] = .ok (2, 1) ∧
    ParseFormatVersion [(VersionKey, Value.vStr "3")] = .ok (3, 0) ∧
    ParseFormatVersion [] = .error fvErr := by
  refine ⟨?_, ?_, ?_⟩
  · have h := (parseFormatVersion_accepts [(VersionKey, Value.vStr "2.1")]).2.1
      (['2'] : List Char) (['1'] : List Char) (by decide) (by decide) (by decide)
      (by decide) (by decide) (by decide) rfl
    exact h.trans (by rfl)
  · have h := (parseFormatVersion_accepts [(VersionKey, Value.vStr "3")]).1
      (['3'] : List Char) (by decide) (by decide) (by decide) rfl
    exact h.trans (by rfl)
  · exact (parseFormatVersion_accepts []).2.2.1 rfl

end DeckFormat
